import Mathlib

/-!
# Spinning cube (`src/application.cpp`)

A shallow embedding of the cube demo: the two constant geometry tables, the
matrix arithmetic the frame loop performs, and `main` as a function from the
answers of the windowing / graphics collaborators to the sequence of calls it
makes and its exit status.

Floating-point values are read as exact numbers: the tables over `ℚ` (every
literal in them is a dyadic rational, so the reading is exact), the matrix
code over an arbitrary field with the C math functions passed in.
-/

namespace Cube

/-! ## Geometry tables -/

/-- The array `vertices` of `application.cpp` (lines 9-19): 8 rows of
position (3 floats) followed by colour (3 floats). -/
def vertices : List ℚ := [
  -0.5, -0.5, -0.5,   1.0, 0.0, 0.0,
   0.5, -0.5, -0.5,   0.0, 1.0, 0.0,
   0.5,  0.5, -0.5,   0.0, 0.0, 1.0,
  -0.5,  0.5, -0.5,   1.0, 1.0, 0.0,
  -0.5, -0.5,  0.5,   1.0, 0.0, 1.0,
   0.5, -0.5,  0.5,   0.0, 1.0, 1.0,
   0.5,  0.5,  0.5,   1.0, 1.0, 1.0,
  -0.5,  0.5,  0.5,   0.5, 0.5, 0.5 ]

/-- The array `indices` of `application.cpp` (lines 22-29). -/
def indices : List Nat := [
  0, 1, 2,  2, 3, 0,
  4, 5, 6,  6, 7, 4,
  4, 5, 1,  1, 0, 4,
  3, 2, 6,  6, 7, 3,
  0, 3, 7,  7, 4, 0,
  1, 5, 6,  6, 2, 1 ]

/-- Number of floats per vertex: the stride `6 * sizeof(float)` that `setup`
passes to both `glVertexAttribPointer` calls, counted in floats. -/
def strideFloats : Nat := 6

/-- Number of indices the frame loop hands to `glDrawElements`. -/
def drawCount : Nat := 36

/-- Number of rows of the vertex table, `sizeof(vertices)` over the stride. -/
def vertexCount : Nat := vertices.length / strideFloats

/-- The float the vertex fetch reads for component `j` of attribute 0
(offset 0, 3 components) of vertex `v`; `none` outside the table. -/
def positionComponent (v j : Nat) : Option ℚ := vertices.get? (strideFloats * v + j)

/-- Position of vertex `v` as attribute 0 delivers it (`0` where the table
has no entry). -/
def pos (v : Nat) : ℚ × ℚ × ℚ :=
  ((positionComponent v 0).getD 0, (positionComponent v 1).getD 0, (positionComponent v 2).getD 0)

/-- Coordinate `axis` (0 = x, 1 = y, 2 = z) of a point. -/
def coord (p : ℚ × ℚ × ℚ) (axis : Nat) : ℚ :=
  match axis with
  | 0 => p.1
  | 1 => p.2.1
  | _ => p.2.2

/-- The `t`-th triangle of the `GL_TRIANGLES` list: indices `3t, 3t+1, 3t+2`. -/
def triangle (t : Nat) : Nat × Nat × Nat :=
  (indices.getD (3 * t) 0, indices.getD (3 * t + 1) 0, indices.getD (3 * t + 2) 0)

/-- The set of vertices a triangle references. -/
def triVerts (t : Nat) : Finset Nat :=
  {(triangle t).1, (triangle t).2.1, (triangle t).2.2}

/-- Difference of two points. -/
def vsub (p q : ℚ × ℚ × ℚ) : ℚ × ℚ × ℚ := (p.1 - q.1, p.2.1 - q.2.1, p.2.2 - q.2.2)

/-- Cross product of two vectors. -/
def cross (a b : ℚ × ℚ × ℚ) : ℚ × ℚ × ℚ :=
  (a.2.1 * b.2.2 - a.2.2 * b.2.1, a.2.2 * b.1 - a.1 * b.2.2, a.1 * b.2.1 - a.2.1 * b.1)

/-- Winding vector of triangle `t = (a, b, c)`:
`(pos b - pos a) × (pos c - pos a)`. -/
def triNormal (t : Nat) : ℚ × ℚ × ℚ :=
  cross (vsub (pos (triangle t).2.1) (pos (triangle t).1))
        (vsub (pos (triangle t).2.2) (pos (triangle t).1))

/-- The face planes in the order of the comments of the index table
(Front, Back, Bottom, Top, Left, Right): the coordinate that is constant on
the face and its value. -/
def facePlanes : List (Nat × ℚ) :=
  [(2, -0.5), (2, 0.5), (1, -0.5), (1, 0.5), (0, -0.5), (0, 0.5)]

/-- Plane of face `k` (default: the first one). -/
def facePlane (k : Nat) : Nat × ℚ := facePlanes.getD k (2, -0.5)

/-! ## Vectors and matrices (`glm`) -/

/-- The C math library as the matrix code uses it: `cos`, `sin`, `tan`,
`sqrt`, and the constant π behind the degree-to-radian conversion. -/
structure MathFns (K : Type) where
  cos : K → K
  sin : K → K
  tan : K → K
  sqrt : K → K
  pi : K

/-- The type `glm::vec3`. -/
structure Vec3 (K : Type) where
  x : K
  y : K
  z : K

/-- The type `glm::vec4`. -/
structure Vec4 (K : Type) where
  x : K
  y : K
  z : K
  w : K

/-- The type `glm::mat4`: four columns, `m[0]` to `m[3]` (column-major, so
`m[c][r]` is row `r` of column `c`). -/
structure Mat4 (K : Type) where
  c0 : Vec4 K
  c1 : Vec4 K
  c2 : Vec4 K
  c3 : Vec4 K

section Glm
variable {K : Type} [Field K]

/-- Product `v * s` of a `vec4` with a scalar. -/
def Vec4.scale (v : Vec4 K) (s : K) : Vec4 K := ⟨v.x * s, v.y * s, v.z * s, v.w * s⟩

/-- Sum `a + b` of two `vec4`. -/
def Vec4.add (a b : Vec4 K) : Vec4 K := ⟨a.x + b.x, a.y + b.y, a.z + b.z, a.w + b.w⟩

/-- Product `v * s` of a `vec3` with a scalar. -/
def Vec3.scale (v : Vec3 K) (s : K) : Vec3 K := ⟨v.x * s, v.y * s, v.z * s⟩

/-- The function `glm::dot` on `vec3`. -/
def dot (a b : Vec3 K) : K := a.x * b.x + a.y * b.y + a.z * b.z

/-- The constructor `glm::mat4(s)`: `s` on the diagonal, zero elsewhere. -/
def Mat4.diag (s : K) : Mat4 K :=
  ⟨⟨s, 0, 0, 0⟩, ⟨0, s, 0, 0⟩, ⟨0, 0, s, 0⟩, ⟨0, 0, 0, s⟩⟩

/-- Modelled from the spec: `glm::inversesqrt` is library code outside
`src/`; it is `1 / sqrt x`. -/
def inversesqrt (F : MathFns K) (x : K) : K := 1 / F.sqrt x

/-- Modelled from the spec: `glm::normalize` is library code outside `src/`
("normalized appropriately"); it is `v * inversesqrt(dot(v, v))`. -/
def normalize (F : MathFns K) (v : Vec3 K) : Vec3 K := v.scale (inversesqrt F (dot v v))

/-- Modelled from the spec: `glm::radians` is library code outside `src/`;
degrees "converted to radians", `degrees * (π / 180)`. -/
def radians (F : MathFns K) (degrees : K) : K := degrees * (F.pi / 180)

/-- Modelled from the spec: `glm::rotate(m, angle, v)` is library code
outside `src/`; "a rotation of `angle` radians about the fixed axis",
composed with `m`. The body follows the library's: the 3x3 axis-angle block
`Rotate` of the normalised axis, then the first three columns of the result
as combinations of the columns of `m`, the fourth column kept. -/
def rotate (F : MathFns K) (m : Mat4 K) (angle : K) (v : Vec3 K) : Mat4 K :=
  let c := F.cos angle
  let s := F.sin angle
  let axis := normalize F v
  let temp := axis.scale (1 - c)
  let r00 := c + temp.x * axis.x
  let r01 := temp.x * axis.y + s * axis.z
  let r02 := temp.x * axis.z - s * axis.y
  let r10 := temp.y * axis.x - s * axis.z
  let r11 := c + temp.y * axis.y
  let r12 := temp.y * axis.z + s * axis.x
  let r20 := temp.z * axis.x + s * axis.y
  let r21 := temp.z * axis.y - s * axis.x
  let r22 := c + temp.z * axis.z
  ⟨((m.c0.scale r00).add (m.c1.scale r01)).add (m.c2.scale r02),
   ((m.c0.scale r10).add (m.c1.scale r11)).add (m.c2.scale r12),
   ((m.c0.scale r20).add (m.c1.scale r21)).add (m.c2.scale r22),
   m.c3⟩

/-- Modelled from the spec: `glm::translate(m, v)` is library code outside
`src/`; the first three columns of `m` kept, the fourth replaced by
`m[0] * v[0] + m[1] * v[1] + m[2] * v[2] + m[3]`. -/
def translate (m : Mat4 K) (v : Vec3 K) : Mat4 K :=
  ⟨m.c0, m.c1, m.c2,
   (((m.c0.scale v.x).add (m.c1.scale v.y)).add (m.c2.scale v.z)).add m.c3⟩

/-- Modelled from the spec: `glm::perspective(fovy, aspect, zNear, zFar)` is
library code outside `src/`; the right-handed perspective matrix with clip
depth -1..1 (the library's default), all entries zero except the five set. -/
def perspective (F : MathFns K) (fovy aspect zNear zFar : K) : Mat4 K :=
  let tanHalfFovy := F.tan (fovy / 2)
  ⟨⟨1 / (aspect * tanHalfFovy), 0, 0, 0⟩,
   ⟨0, 1 / tanHalfFovy, 0, 0⟩,
   ⟨0, 0, -(zFar + zNear) / (zFar - zNear), -1⟩,
   ⟨0, 0, -(2 * zFar * zNear) / (zFar - zNear), 0⟩⟩

/-! ## The transforms of `main` -/

/-- The axis `glm::vec3(0.5f, 1.0f, 0.0f)` of line 183. -/
def rotationAxis : Vec3 K := ⟨0.5, 1.0, 0.0⟩

/-- The local `rotationSpeed` of line 182. -/
def rotationSpeed : K := 1.0

/-- The initial `model` of line 150, `glm::mat4(1.0f)`. -/
def initialModel : Mat4 K := Mat4.diag 1.0

/-- The matrix `view` of lines 151-152. -/
def viewMatrix : Mat4 K := translate (Mat4.diag 1.0) ⟨0.0, 0.0, -3.0⟩

/-- The matrix `projection` of line 155. -/
def projectionMatrix (F : MathFns K) : Mat4 K :=
  perspective F (radians F 45.0) (800 / 600) 0.1 100.0

/-- The model update of line 183:
`glm::rotate(model, rotationSpeed * deltaTime, glm::vec3(0.5f, 1.0f, 0.0f))`. -/
def updateModel (F : MathFns K) (model : Mat4 K) (deltaTime : K) : Mat4 K :=
  rotate F model (rotationSpeed * deltaTime) rotationAxis

/-- The matrix a `mat4` denotes: entry `(r, c)` is `m[c][r]`. -/
def Mat4.toMatrix (m : Mat4 K) : Matrix (Fin 4) (Fin 4) K :=
  !![m.c0.x, m.c1.x, m.c2.x, m.c3.x;
     m.c0.y, m.c1.y, m.c2.y, m.c3.y;
     m.c0.z, m.c1.z, m.c2.z, m.c3.z;
     m.c0.w, m.c1.w, m.c2.w, m.c3.w]

/-- The cross-product matrix `[u]ₓ` of a vector. -/
def crossMatrix (u : Fin 3 → K) : Matrix (Fin 3) (Fin 3) K :=
  !![0, -(u 2), u 1;
     u 2, 0, -(u 0);
     -(u 1), u 0, 0]

/-- Rodrigues' formula as the specification words it:
`c * I + (1 - c) * u * uᵀ + s * [u]ₓ`, with `c`, `s` the cosine and sine of
the angle. -/
def rodrigues (c s : K) (u : Fin 3 → K) : Matrix (Fin 3) (Fin 3) K :=
  c • (1 : Matrix (Fin 3) (Fin 3) K) + (1 - c) • Matrix.vecMulVec u u + s • crossMatrix u

/-- A 3x3 block extended to a 4x4 matrix whose fourth row and column are
`(0, 0, 0, 1)`. -/
def homogeneous (R : Matrix (Fin 3) (Fin 3) K) : Matrix (Fin 4) (Fin 4) K :=
  !![R 0 0, R 0 1, R 0 2, 0;
     R 1 0, R 1 1, R 1 2, 0;
     R 2 0, R 2 1, R 2 2, 0;
     0, 0, 0, 1]

end Glm

/-- The math functions over the reals: the exact functions the
floating-point ones approximate. -/
noncomputable def realFns : MathFns ℝ := ⟨Real.cos, Real.sin, Real.tan, Real.sqrt, Real.pi⟩

/-! ## The calls `main` and `setup` make -/

/-- The two shader objects of `setup`: `vertexShader`, `fragmentShader`. -/
inductive Shader where
  | vertexShader
  | fragmentShader
  deriving DecidableEq, Repr

/-- The buffer targets `GL_ARRAY_BUFFER` and `GL_ELEMENT_ARRAY_BUFFER`. -/
inductive Target where
  | arrayBuffer
  | elementArrayBuffer
  deriving DecidableEq, Repr

/-- The two buffer names held in the globals `VBO` and `EBO`. -/
inductive Buffer where
  | VBO
  | EBO
  deriving DecidableEq, Repr

/-- The two tables handed to `glBufferData`. -/
inductive Table where
  | vertices
  | indices
  deriving DecidableEq, Repr

/-- The three locals that hold the uniform locations. -/
inductive Location where
  | modelLoc
  | viewLoc
  | projLoc
  deriving DecidableEq, Repr

/-- One call to the windowing library, the loader, the graphics API or the
error stream, with the arguments the source passes. -/
inductive Call (K : Type) where
  | glfwInit
  | glfwCreateWindow (width height : Nat) (title : String)
  | glfwTerminate
  | glfwMakeContextCurrent
  | glfwSetFramebufferSizeCallback
  | gladLoadGLLoader
  | cerr (text : String)
  | cerrEndl
  | glEnableDepthTest
  | glCreateShader (shader : Shader)
  | glShaderSource (shader : Shader)
  | glCompileShader (shader : Shader)
  | glCreateProgram
  | glAttachShader (shader : Shader)
  | glLinkProgram
  | glDeleteShader (shader : Shader)
  | glGenVertexArrays
  | glGenBuffers (buffer : Buffer)
  | glBindVertexArray (vao : Bool)
  | glBindBuffer (target : Target) (buffer : Option Buffer)
  | glBufferData (target : Target) (data : Table)
  | glVertexAttribPointer (index size strideBytes offsetBytes : Nat)
  | glEnableVertexAttribArray (index : Nat)
  | glViewport (width height : Int)
  | glfwWindowShouldClose
  | glfwGetTime
  | glfwGetKey
  | glfwSetWindowShouldClose
  | glClear
  | glUseProgram
  | glGetUniformLocation (name : String)
  | glUniformMatrix4fv (location : Location) (value : Mat4 K)
  | glDrawElements (count : Nat)
  | glfwSwapBuffers
  | glfwPollEvents

section Program
variable {K : Type}

/-- Is the call a `glDrawElements`? -/
def Call.isDraw : Call K → Bool
  | .glDrawElements _ => true
  | _ => false

/-- Is the call the loop test `glfwWindowShouldClose`? -/
def Call.isLoopTest : Call K → Bool
  | .glfwWindowShouldClose => true
  | _ => false

/-- Is the call one of the three start-up steps that can fail? -/
def Call.isStartupStep : Call K → Bool
  | .glfwInit => true
  | .glfwCreateWindow _ _ _ => true
  | .gladLoadGLLoader => true
  | _ => false

/-- Does the call bind buffer `b` to a buffer target? -/
def Call.bindsBuffer (b : Buffer) : Call K → Bool
  | .glBindBuffer _ (some b') => decide (b' = b)
  | _ => false

/-- Does the call upload table `t` into a buffer? -/
def Call.uploads (t : Table) : Call K → Bool
  | .glBufferData _ t' => decide (t' = t)
  | _ => false

/-- Is the call a buffer binding or a buffer upload? -/
def Call.isBufferCall : Call K → Bool
  | .glBindBuffer _ _ => true
  | .glBufferData _ _ => true
  | _ => false

/-- Is the call one that only `setup` makes: shader and program creation,
object generation, buffer binding and upload, attribute layout? -/
def Call.isSetupOnly : Call K → Bool
  | .glCreateShader _ => true
  | .glShaderSource _ => true
  | .glCompileShader _ => true
  | .glCreateProgram => true
  | .glAttachShader _ => true
  | .glLinkProgram => true
  | .glDeleteShader _ => true
  | .glGenVertexArrays => true
  | .glGenBuffers _ => true
  | .glBindBuffer _ _ => true
  | .glBufferData _ _ => true
  | .glVertexAttribPointer _ _ _ _ => true
  | .glEnableVertexAttribArray _ => true
  | _ => false

/-- The function `setup` (lines 64-108): a straight line of calls. Sizes are in
bytes with `sizeof(float) = 4`. -/
def setup : List (Call K) :=
  [ .glCreateShader .vertexShader,
    .glShaderSource .vertexShader,
    .glCompileShader .vertexShader,
    .glCreateShader .fragmentShader,
    .glShaderSource .fragmentShader,
    .glCompileShader .fragmentShader,
    .glCreateProgram,
    .glAttachShader .vertexShader,
    .glAttachShader .fragmentShader,
    .glLinkProgram,
    .glDeleteShader .vertexShader,
    .glDeleteShader .fragmentShader,
    .glGenVertexArrays,
    .glGenBuffers .VBO,
    .glGenBuffers .EBO,
    .glBindVertexArray true,
    .glBindBuffer .arrayBuffer (some .VBO),
    .glBufferData .arrayBuffer .vertices,
    .glBindBuffer .elementArrayBuffer (some .EBO),
    .glBufferData .elementArrayBuffer .indices,
    .glVertexAttribPointer 0 3 (6 * 4) 0,
    .glEnableVertexAttribArray 0,
    .glVertexAttribPointer 1 3 (6 * 4) (3 * 4),
    .glEnableVertexAttribArray 1,
    .glBindBuffer .arrayBuffer none,
    .glBindVertexArray false ]

/-- What the collaborators answer during one run: whether each start-up step
succeeds, and for the `i`-th iteration of the frame loop the time
`glfwGetTime` returns, whether the escape key is down, whether
`glfwPollEvents` sees a close request, and the size of a resize it delivers
to `framebuffer_size_callback`, if any. -/
structure Env (K : Type) where
  glfwInit : Bool
  glfwCreateWindow : Bool
  gladLoadGLLoader : Bool
  glfwGetTime : Nat → K
  escapePressed : Nat → Bool
  closeRequested : Nat → Bool
  resized : Nat → Option (Int × Int)

/-- The variables that live across iterations of the frame loop, and the close
flag of the window. -/
structure LoopState (K : Type) where
  model : Mat4 K
  lastFrame : K
  deltaTime : K
  shouldClose : Bool

/-- The function `framebuffer_size_callback` (lines 111-113). -/
def framebuffer_size_callback (width height : Int) : List (Call K) :=
  [.glViewport width height]

/-- The function `processInput` (lines 116-119): the new close flag and the
calls made. -/
def processInput (escapePressed : Bool) (shouldClose : Bool) : Bool × List (Call K) :=
  if escapePressed then (true, [.glfwGetKey, .glfwSetWindowShouldClose])
  else (shouldClose, [.glfwGetKey])

variable [Field K]

/-- The body of the `while` loop (lines 162-196) in iteration `i`: the state
after it and the calls it makes, in order. -/
def frame (F : MathFns K) (env : Env K) (view projection : Mat4 K) (i : Nat)
    (s : LoopState K) : LoopState K × List (Call K) :=
  let currentFrame := env.glfwGetTime i
  let deltaTime := currentFrame - s.lastFrame
  let lastFrame := currentFrame
  let input := processInput (env.escapePressed i) s.shouldClose
  let model := updateModel F s.model deltaTime
  let events : List (Call K) :=
    match env.resized i with
    | some (w, h) => framebuffer_size_callback w h
    | none => []
  (⟨model, lastFrame, deltaTime, input.1 || env.closeRequested i⟩,
   [.glfwGetTime] ++ input.2 ++
   [ .glClear,
     .glUseProgram,
     .glGetUniformLocation "model",
     .glGetUniformLocation "view",
     .glGetUniformLocation "projection",
     .glUniformMatrix4fv .modelLoc model,
     .glUniformMatrix4fv .viewLoc view,
     .glUniformMatrix4fv .projLoc projection,
     .glBindVertexArray true,
     .glDrawElements drawCount,
     .glfwSwapBuffers,
     .glfwPollEvents ] ++ events)

/-- What a run of the loop, or of `main`, leaves behind: the calls made, the
number of loop iterations completed, and the state the loop ended in (`none`
while it is still running when the fuel is used up). -/
structure LoopRun (K : Type) where
  calls : List (Call K)
  frames : Nat
  final : Option (LoopState K)

/-- The `while (!glfwWindowShouldClose(window))` loop of lines 161-197, run
for at most `fuel` tests of the condition, starting with iteration `i`. -/
def loop (F : MathFns K) (env : Env K) (view projection : Mat4 K) :
    Nat → Nat → LoopState K → LoopRun K
  | 0, i, _ => ⟨[], i, none⟩
  | fuel + 1, i, s =>
    if s.shouldClose then ⟨[.glfwWindowShouldClose], i, some s⟩
    else
      let step := frame F env view projection i s
      let r := loop F env view projection fuel (i + 1) step.1
      ⟨.glfwWindowShouldClose :: step.2 ++ r.calls, r.frames, r.final⟩

/-- What a run of `main` leaves behind: the calls made, the number of frames
rendered, and the exit status (`none` while the frame loop is still running
when the fuel is used up). -/
structure Run (K : Type) where
  calls : List (Call K)
  frames : Nat
  status : Option Int

/-- The calls of lines 124-147 when every start-up step succeeds, up to and
including `setup()`. -/
def startup : List (Call K) :=
  [ .glfwInit,
    .glfwCreateWindow 800 600 "Spinning Cube",
    .glfwMakeContextCurrent,
    .glfwSetFramebufferSizeCallback,
    .gladLoadGLLoader,
    .glEnableDepthTest ] ++ setup

/-- The function `main` (lines 122-203), with the frame loop run for at most
`fuel` tests of its condition. The close flag of the new window starts out
unset. -/
def main (F : MathFns K) (env : Env K) (fuel : Nat) : Run K :=
  if !env.glfwInit then ⟨[.glfwInit], 0, some (-1)⟩
  else if !env.glfwCreateWindow then
    ⟨[.glfwInit, .glfwCreateWindow 800 600 "Spinning Cube", .glfwTerminate], 0, some (-1)⟩
  else if !env.gladLoadGLLoader then
    ⟨[ .glfwInit,
       .glfwCreateWindow 800 600 "Spinning Cube",
       .glfwMakeContextCurrent,
       .glfwSetFramebufferSizeCallback,
       .gladLoadGLLoader,
       .cerr "Failed to initialize GLAD",
       .cerrEndl ], 0, some (-1)⟩
  else
    let model : Mat4 K := initialModel
    let view : Mat4 K := viewMatrix
    let projection : Mat4 K := projectionMatrix F
    let lastFrame : K := 0.0
    let deltaTime : K := 0.0
    let r := loop F env view projection fuel 0 ⟨model, lastFrame, deltaTime, false⟩
    match r.final with
    | some _ => ⟨startup ++ r.calls ++ [.glfwTerminate], r.frames, some 0⟩
    | none => ⟨startup ++ r.calls, r.frames, none⟩

/-- The time `lastFrame` holds when iteration `i` starts: 0 at first, then the
time read in the iteration before. -/
def lastFrameAt (env : Env K) : Nat → K
  | 0 => 0.0
  | i + 1 => env.glfwGetTime i

/-- The delta of iteration `i`: the time read in it minus `lastFrame`. -/
def deltaAt (env : Env K) (i : Nat) : K := env.glfwGetTime i - lastFrameAt env i

/-- The model after `n` iterations: the initial model updated once per
iteration with that iteration's delta. -/
def modelAfter (F : MathFns K) (env : Env K) : Nat → Mat4 K
  | 0 => initialModel
  | n + 1 => updateModel F (modelAfter F env n) (deltaAt env n)

end Program

/-- A sample run over the reals: every start-up step succeeds, the clock
reads 1 in every iteration and the escape key is down from the start. -/
def sampleEnv : Env ℝ :=
  ⟨true, true, true, fun _ => 1, fun _ => true, fun _ => false, fun _ => none⟩

end Cube

namespace Cube

/-! ## The geometry tables -/

/-- C1: the index table has 36 entries, the vertex table 48 floats = 8 rows of
6, every entry of the index table is at most 7, and for every one of the 36
indices drawn every float of its row lies inside the vertex table. -/
theorem indices_in_vertex_table :
    indices.length = 36 ∧ drawCount = indices.length ∧
    vertices.length = 48 ∧ vertexCount = 8 ∧
    (∀ i ∈ indices, i ≤ 7) ∧
    (∀ n : Fin 36, indices.getD n.val 0 < vertexCount ∧
      ∀ j : Fin 6, strideFloats * indices.getD n.val 0 + j.val < vertices.length) := by
  refine ⟨by decide, by decide, by decide, by decide, by decide, by decide⟩

/-- C2: for every face `k` of the six, triangles `2k` and `2k+1` each have
three distinct indices, share exactly two vertices, reference four distinct
vertices together, and all four lie in the plane the comment of that row
names; the six planes are pairwise distinct and are z=-0.5, z=+0.5, y=-0.5,
y=+0.5, x=-0.5, x=+0.5 in table order. -/
theorem faces_are_triangle_pairs :
    indices.length = 3 * 12 ∧
    (∀ k : Fin 6,
      (triVerts (2 * k.val)).card = 3 ∧ (triVerts (2 * k.val + 1)).card = 3 ∧
      (triVerts (2 * k.val) ∩ triVerts (2 * k.val + 1)).card = 2 ∧
      (triVerts (2 * k.val) ∪ triVerts (2 * k.val + 1)).card = 4 ∧
      ((facePlane k.val).2 = -0.5 ∨ (facePlane k.val).2 = 0.5) ∧
      ∀ v ∈ triVerts (2 * k.val) ∪ triVerts (2 * k.val + 1),
        coord (pos v) (facePlane k.val).1 = (facePlane k.val).2) ∧
    facePlanes.Nodup ∧
    facePlanes = [(2, -1/2), (2, 1/2), (1, -1/2), (1, 1/2), (0, -1/2), (0, 1/2)] := by
  refine ⟨by decide, by decide!, by decide!, by decide!⟩

/-- C10: for every face `k`, triangles `2k` and `2k+1` have the same winding
vector, that vector is not zero, and its only non-zero component is the one
along the axis perpendicular to the face. -/
theorem face_triangles_same_winding :
    ∀ k : Fin 6,
      triNormal (2 * k.val) = triNormal (2 * k.val + 1) ∧
      triNormal (2 * k.val) ≠ (0, 0, 0) ∧
      coord (triNormal (2 * k.val)) (facePlane k.val).1 ≠ 0 ∧
      ∀ a : Fin 3, a.val ≠ (facePlane k.val).1 → coord (triNormal (2 * k.val)) a.val = 0 := by
  decide!

/-! ## Matrix arithmetic over the reals -/

/-- Squared length of the rotation axis. -/
lemma dot_rotationAxis : dot (rotationAxis : Vec3 ℝ) rotationAxis = 5 / 4 := by
  simp only [dot, rotationAxis]; norm_num

/-- The scale factor that normalises the axis, squared. -/
lemma inversesqrt_axis_sq :
    inversesqrt realFns (dot (rotationAxis : Vec3 ℝ) rotationAxis) ^ 2 = 4 / 5 := by
  rw [dot_rotationAxis]
  simp only [inversesqrt, realFns]
  rw [div_pow, Real.sq_sqrt (by norm_num)]
  norm_num

/-- A zero angle leaves every matrix as it is. -/
lemma rotate_zero (M : Mat4 ℝ) (v : Vec3 ℝ) : rotate realFns M 0 v = M := by
  obtain ⟨⟨a0, a1, a2, a3⟩, ⟨b0, b1, b2, b3⟩, ⟨c0, c1, c2, c3⟩, d⟩ := M
  simp [rotate, realFns, Vec4.scale, Vec4.add, Vec3.scale]

/-- Two rotations about the axis of the frame loop compose into one. -/
lemma rotate_rotate (M : Mat4 ℝ) (a b : ℝ) :
    rotate realFns (rotate realFns M a rotationAxis) b rotationAxis =
      rotate realFns M (a + b) rotationAxis := by
  obtain ⟨⟨a0, a1, a2, a3⟩, ⟨b0, b1, b2, b3⟩, ⟨c0, c1, c2, c3⟩, d⟩ := M
  have hk := inversesqrt_axis_sq
  simp only [rotate, normalize, Vec4.scale, Vec4.add, Vec3.scale]
  generalize inversesqrt realFns (dot (rotationAxis : Vec3 ℝ) rotationAxis) = k at hk
  have hk3 : k ^ 3 = 4 / 5 * k := by linear_combination k * hk
  have hk4 : k ^ 4 = 16 / 25 := by linear_combination (k ^ 2 + 4 / 5) * hk
  simp only [realFns, rotationAxis, Real.cos_add, Real.sin_add, Mat4.mk.injEq, Vec4.mk.injEq,
    and_true]
  refine ⟨⟨?_, ?_, ?_, ?_⟩, ⟨?_, ?_, ?_, ?_⟩, ⟨?_, ?_, ?_, ?_⟩⟩ <;>
    (ring_nf; simp only [hk, hk3, hk4]; ring)

/-- With speed 1 the frame update is a rotation by the frame's delta. -/
lemma updateModel_eq (M : Mat4 ℝ) (d : ℝ) :
    updateModel realFns M d = rotate realFns M d rotationAxis := by
  norm_num [updateModel, rotationSpeed]

/-- Rodrigues' matrix in homogeneous form, entry by entry. -/
lemma homogeneous_rodrigues (c s x y z : ℝ) :
    homogeneous (rodrigues c s ![x, y, z]) =
      !![c + (1 - c) * (x * x), (1 - c) * (x * y) - s * z, (1 - c) * (x * z) + s * y, 0;
         (1 - c) * (y * x) + s * z, c + (1 - c) * (y * y), (1 - c) * (y * z) - s * x, 0;
         (1 - c) * (z * x) - s * y, (1 - c) * (z * y) + s * x, c + (1 - c) * (z * z), 0;
         0, 0, 0, 1] := by
  simp only [homogeneous, rodrigues, crossMatrix]
  ext i j
  fin_cases i <;> fin_cases j <;> simp [Matrix.vecMulVec] <;> ring

/-- The normalised axis in closed form. -/
lemma normalize_rotationAxis :
    normalize realFns (rotationAxis : Vec3 ℝ) = ⟨1 / √5, 2 / √5, 0⟩ := by
  have h4 : √(4 : ℝ) = 2 := by
    rw [show (4 : ℝ) = 2 ^ 2 by norm_num, Real.sqrt_sq (by norm_num)]
  have h5 : √(5 : ℝ) ≠ 0 := by positivity
  have h : √(5 / 4 : ℝ) = √5 / 2 := by rw [Real.sqrt_div (by norm_num), h4]
  unfold normalize inversesqrt
  rw [dot_rotationAxis]
  simp only [Vec3.scale, rotationAxis, realFns, h, Vec3.mk.injEq]
  refine ⟨?_, ?_, ?_⟩ <;> field_simp <;> norm_num

/-- Folding the frame update over a list of deltas is one rotation by their sum. -/
lemma foldl_updateModel (ds : List ℝ) (M : Mat4 ℝ) :
    ds.foldl (updateModel realFns) M = rotate realFns M ds.sum rotationAxis := by
  induction ds generalizing M with
  | nil => simp [rotate_zero]
  | cons d ds ih =>
    rw [List.foldl_cons, ih, updateModel_eq, rotate_rotate, List.sum_cons]

/-- Tangent of an eighth of a turn. -/
lemma tan_pi_div_eight : Real.tan (Real.pi / 8) = √2 - 1 := by
  have hc : 0 < Real.cos (Real.pi / 8) :=
    Real.cos_pos_of_mem_Ioo ⟨by linarith [Real.pi_pos], by linarith [Real.pi_pos]⟩
  have h2 : (0 : ℝ) ≤ 2 := by norm_num
  have hs2 : √2 * √2 = (2 : ℝ) := Real.mul_self_sqrt h2
  have hsin : Real.sin (Real.pi / 4) = 2 * Real.sin (Real.pi / 8) * Real.cos (Real.pi / 8) := by
    rw [← Real.sin_two_mul]; congr 1; ring
  have hcos : Real.cos (Real.pi / 4) = 2 * Real.cos (Real.pi / 8) ^ 2 - 1 := by
    rw [← Real.cos_two_mul]; congr 1; ring
  rw [Real.sin_pi_div_four] at hsin
  rw [Real.cos_pi_div_four] at hcos
  rw [Real.tan_eq_sin_div_cos, div_eq_iff hc.ne']
  have hc2 : Real.cos (Real.pi / 8) ^ 2 = (2 + √2) / 4 := by linarith
  have hcne := hc.ne'
  -- sin = (√2/4) / cos ; want sin = (√2 - 1) cos
  have : Real.sin (Real.pi / 8) * Real.cos (Real.pi / 8) = (√2 - 1) * Real.cos (Real.pi / 8) ^ 2 := by
    rw [hc2]; nlinarith
  have h3 : (Real.sin (Real.pi / 8) - (√2 - 1) * Real.cos (Real.pi / 8)) * Real.cos (Real.pi / 8) = 0 := by
    linear_combination this
  rcases mul_eq_zero.mp h3 with h | h
  · linarith
  · exact absurd h hcne

/-- The model after `n` iterations is the initial model rotated once by the
sum of the deltas. -/
lemma modelAfter_eq (env : Env ℝ) (n : Nat) :
    modelAfter realFns env n =
      rotate realFns initialModel ((List.range n).map (deltaAt env)).sum rotationAxis := by
  induction n with
  | zero => simp [modelAfter, rotate_zero]
  | succ n ih =>
    rw [modelAfter, ih, updateModel_eq, rotate_rotate, List.range_succ, List.map_append,
      List.sum_append]
    simp

/-- C3: in exact real arithmetic, rotating by `a` and then by `b` about the
axis (0.5, 1, 0) is rotating by `a + b`; hence the model after any list of
frame deltas is the starting model rotated once by their sum, two lists of
deltas with the same sum give the same model, and the model the loop holds
after `n` iterations is the initial model rotated by the sum of the `n`
deltas. -/
theorem rotation_increments_add :
    (∀ (M : Mat4 ℝ) (a b : ℝ),
      rotate realFns (rotate realFns M a rotationAxis) b rotationAxis =
        rotate realFns M (a + b) rotationAxis) ∧
    (∀ (M : Mat4 ℝ) (ds : List ℝ),
      ds.foldl (updateModel realFns) M = rotate realFns M ds.sum rotationAxis) ∧
    (∀ (M : Mat4 ℝ) (ds es : List ℝ), ds.sum = es.sum →
      ds.foldl (updateModel realFns) M = es.foldl (updateModel realFns) M) ∧
    (∀ (env : Env ℝ) (n : Nat),
      modelAfter realFns env n =
        rotate realFns initialModel ((List.range n).map (deltaAt env)).sum rotationAxis) := by
  refine ⟨rotate_rotate, fun M ds => foldl_updateModel ds M, fun M ds es h => ?_, modelAfter_eq⟩
  rw [foldl_updateModel, foldl_updateModel, h]

/-- C4: in exact real arithmetic the projection matrix of `main` is the
right-handed perspective matrix with clip depth -1..1 for fovy = π/4,
aspect = 800/600, near = 0.1, far = 100: `tan(fovy/2) = √2 - 1`, the entries
are `3(√2+1)/4`, `√2+1`, `-100.1/99.9`, `-1`, `-20/99.9`, all others zero. -/
theorem projection_matrix_reference :
    realFns.tan (radians realFns 45.0 / 2) = √2 - 1 ∧
    projectionMatrix realFns =
      ⟨⟨3 * (√2 + 1) / 4, 0, 0, 0⟩,
       ⟨0, √2 + 1, 0, 0⟩,
       ⟨0, 0, -100.1 / 99.9, -1⟩,
       ⟨0, 0, -20 / 99.9, 0⟩⟩ ∧
    (3 * (√2 + 1) / 4 : ℝ) = 1 / (800 / 600 * (√2 - 1)) ∧
    (√2 + 1 : ℝ) = 1 / (√2 - 1) ∧
    (-100.1 / 99.9 : ℝ) = -(100 + 0.1) / (100 - 0.1) ∧
    (-20 / 99.9 : ℝ) = -(2 * 100 * 0.1) / (100 - 0.1) := by
  have h2 : (0 : ℝ) ≤ 2 := by norm_num
  have hs2 : √2 * √2 = (2 : ℝ) := Real.mul_self_sqrt h2
  have hpos : (0 : ℝ) < √2 - 1 := by
    have : (1 : ℝ) < √2 := by
      rw [show (1 : ℝ) = √1 by simp]; exact Real.sqrt_lt_sqrt (by norm_num) (by norm_num)
    linarith
  have hrad : radians realFns (45.0 : ℝ) / 2 = Real.pi / 8 := by
    simp only [radians, realFns]; ring
  have ht : realFns.tan (radians realFns 45.0 / 2) = √2 - 1 := by
    rw [hrad]; exact tan_pi_div_eight
  have e1 : (√2 + 1 : ℝ) = 1 / (√2 - 1) := by
    rw [eq_div_iff hpos.ne']; nlinarith
  have e0 : (3 * (√2 + 1) / 4 : ℝ) = 1 / (800 / 600 * (√2 - 1)) := by
    rw [eq_div_iff (by positivity)]; nlinarith
  refine ⟨ht, ?_, e0, e1, by norm_num, by norm_num⟩
  simp only [projectionMatrix, perspective, ht, Mat4.mk.injEq, Vec4.mk.injEq, true_and, and_true]
  refine ⟨e0.symm, e1.symm, by norm_num, by norm_num⟩

set_option maxHeartbeats 1600000 in
/-- The frame update as a matrix product. -/
lemma toMatrix_updateModel (d : ℝ) (M : Mat4 ℝ) :
    (updateModel realFns M d).toMatrix =
      M.toMatrix * homogeneous (rodrigues (Real.cos d) (Real.sin d) ![1 / √5, 2 / √5, 0]) := by
  obtain ⟨⟨a0, a1, a2, a3⟩, ⟨b0, b1, b2, b3⟩, ⟨c0, c1, c2, c3⟩, ⟨d0, d1, d2, d3⟩⟩ := M
  rw [updateModel_eq, homogeneous_rodrigues]
  simp only [rotate, normalize_rotationAxis]
  simp only [Vec4.scale, Vec4.add, Vec3.scale, Mat4.toMatrix, realFns]
  ext i j
  fin_cases i <;> fin_cases j <;>
    simp [Matrix.mul_apply, Fin.sum_univ_four] <;> ring

/-- C5: in exact real arithmetic one frame's update of the model `M` with
delta `d` is `M` right-multiplied by the rotation of `1.0 * d = d` radians
about the normalised axis `(1/√5, 2/√5, 0)`: a 4x4 matrix whose upper-left
block is Rodrigues' matrix and whose fourth row and column are (0,0,0,1);
the loop body updates the model with the delta `currentFrame - lastFrame`, so
when the first frame reads the time 1.0 the model after it is the initial
model times the rotation by 1 radian. -/
theorem frame_update_is_axis_rotation :
    normalize realFns (rotationAxis : Vec3 ℝ) = ⟨1 / √5, 2 / √5, 0⟩ ∧
    (∀ (d : ℝ) (M : Mat4 ℝ),
      updateModel realFns M d = rotate realFns M (1.0 * d) rotationAxis ∧
      (updateModel realFns M d).toMatrix =
        M.toMatrix * homogeneous (rodrigues (Real.cos d) (Real.sin d) ![1 / √5, 2 / √5, 0])) ∧
    (∀ (env : Env ℝ) (V P : Mat4 ℝ) (i : Nat) (s : LoopState ℝ),
      (frame realFns env V P i s).1.model =
        updateModel realFns s.model (env.glfwGetTime i - s.lastFrame)) ∧
    (∀ env : Env ℝ, env.glfwGetTime 0 = 1.0 →
      (modelAfter realFns env 1).toMatrix =
        (initialModel : Mat4 ℝ).toMatrix *
          homogeneous (rodrigues (Real.cos 1) (Real.sin 1) ![1 / √5, 2 / √5, 0])) := by
  refine ⟨normalize_rotationAxis, fun d M => ⟨?_, toMatrix_updateModel d M⟩,
    fun env V P i s => rfl, fun env h => ?_⟩
  · norm_num [updateModel, rotationSpeed]
  · have hd : deltaAt env 0 = 1 := by
      simp only [deltaAt, lastFrameAt, h]; norm_num
    rw [modelAfter, hd]
    exact toMatrix_updateModel 1 _

/-- C6: a frame whose delta is 0 leaves the model as it is, and so does any
number `N` of such frames in a row: the rotation by 0 is the identity matrix,
an iteration that reads the time `lastFrame` holds has delta 0 and keeps the
model, and a loop whose first `N` deltas are 0 still holds the initial model
after them. -/
theorem zero_delta_frames_keep_model :
    (∀ (M : Mat4 ℝ) (N : Nat), (fun m => updateModel realFns m 0)^[N] M = M) ∧
    homogeneous (rodrigues (Real.cos 0) (Real.sin 0) ![1 / √5, 2 / √5, 0]) = 1 ∧
    (∀ (env : Env ℝ) (V P : Mat4 ℝ) (i : Nat) (s : LoopState ℝ),
      env.glfwGetTime i = s.lastFrame →
      (frame realFns env V P i s).1.deltaTime = 0 ∧
      (frame realFns env V P i s).1.model = s.model) ∧
    (∀ (env : Env ℝ) (N : Nat), (∀ i, i < N → deltaAt env i = 0) →
      modelAfter realFns env N = initialModel) := by
  refine ⟨fun M N => ?_, ?_, fun env V P i s h => ?_, fun env N => ?_⟩
  · induction N with
    | zero => rfl
    | succ n ih =>
      rw [Function.iterate_succ_apply', ih, updateModel_eq, rotate_zero]
  · rw [homogeneous_rodrigues]
    ext i j
    fin_cases i <;> fin_cases j <;> simp [Matrix.vecHead, Matrix.vecTail]
  · have hd : (frame realFns env V P i s).1.deltaTime = 0 := by
      simp [frame, h]
    refine ⟨hd, ?_⟩
    show updateModel realFns s.model (env.glfwGetTime i - s.lastFrame) = s.model
    rw [h, sub_self, updateModel_eq, rotate_zero]
  · induction N with
    | zero => intro _; rfl
    | succ n ih =>
      intro h
      rw [modelAfter, ih (fun i hi => h i (Nat.lt_succ_of_lt hi)), h n (Nat.lt_succ_self n),
        updateModel_eq, rotate_zero]

/-! ## The calls of a run -/

section Traces
variable {K : Type}

/-- Splitting a list at an element with property `p` when a prefix is known
to be free of `p`. -/
lemma split_after_free {α : Type} (p : α → Bool) :
    ∀ (xs ys pre post : List α) (c : α), xs ++ ys = pre ++ c :: post →
      (∀ x ∈ xs, p x = false) → p c = true →
      ∃ pre2, pre = xs ++ pre2 ∧ ys = pre2 ++ c :: post := by
  intro xs
  induction xs with
  | nil => intro ys pre post c h _ _; exact ⟨pre, rfl, by simpa using h⟩
  | cons x xs ih =>
    intro ys pre post c h hx hc
    cases pre with
    | nil =>
      simp only [List.cons_append, List.nil_append, List.cons.injEq] at h
      have := hx x (List.mem_cons_self _ _)
      rw [h.1, hc] at this
      exact absurd this (by simp)
    | cons q pre =>
      simp only [List.cons_append, List.cons.injEq] at h
      obtain ⟨pre2, h1, h2⟩ := ih ys pre post c h.2
        (fun y hy => hx y (List.mem_cons_of_mem _ hy)) hc
      exact ⟨pre2, by rw [h.1, h1]; rfl, h2⟩

/-- An element of a list free of `p` does not have `p`. -/
lemma free_of_eq {α : Type} (p : α → Bool) (xs pre post : List α) (c : α)
    (h : xs = pre ++ c :: post) (hx : ∀ x ∈ xs, p x = false) : p c = false :=
  hx c (by rw [h]; simp)

variable [Field K]

/-- Shape of one iteration's calls: calls that are not draws, then the three
uploads and the binding of the vertex array, then the draw of 36 indices,
then calls that are not draws. -/
lemma frame_calls (F : MathFns K) (env : Env K) (V P : Mat4 K) (i : Nat) (s : LoopState K) :
    ∃ X Y : List (Call K),
      (frame F env V P i s).2 =
        (X ++ [ .glUniformMatrix4fv .modelLoc
                  (updateModel F s.model (env.glfwGetTime i - s.lastFrame)),
                .glUniformMatrix4fv .viewLoc V,
                .glUniformMatrix4fv .projLoc P,
                .glBindVertexArray true ]) ++ .glDrawElements 36 :: Y ∧
      (∀ c ∈ X, c.isDraw = false) ∧ (∀ c ∈ Y, c.isDraw = false) := by
  refine ⟨[.glfwGetTime] ++ (processInput (env.escapePressed i) s.shouldClose).2 ++
      [ .glClear, .glUseProgram, .glGetUniformLocation "model", .glGetUniformLocation "view",
        .glGetUniformLocation "projection" ],
    [.glfwSwapBuffers, .glfwPollEvents] ++
      (match env.resized i with
       | some (w, h) => framebuffer_size_callback w h
       | none => []), ?_, ?_, ?_⟩
  · simp [frame, drawCount]
  · simp only [processInput]
    split <;> simp [Call.isDraw]
  · split <;> simp [framebuffer_size_callback, Call.isDraw]

/-- No call of an iteration is a start-up step or a call only `setup` makes. -/
lemma frame_calls_plain (F : MathFns K) (env : Env K) (V P : Mat4 K) (i : Nat)
    (s : LoopState K) :
    ∀ c ∈ (frame F env V P i s).2, c.isSetupOnly = false ∧ c.isStartupStep = false := by
  simp only [frame, processInput, framebuffer_size_callback]
  split <;> split <;> simp [Call.isSetupOnly, Call.isStartupStep]

/-- The state after an iteration. -/
lemma frame_state (F : MathFns K) (env : Env K) (V P : Mat4 K) (i : Nat) (s : LoopState K) :
    (frame F env V P i s).1 =
      ⟨updateModel F s.model (env.glfwGetTime i - s.lastFrame), env.glfwGetTime i,
       env.glfwGetTime i - s.lastFrame,
       (processInput (K := K) (env.escapePressed i) s.shouldClose).1 || env.closeRequested i⟩ := by
  simp [frame]

/-- Unfolding of the loop when the close flag is set. -/
lemma loop_closed (F : MathFns K) (env : Env K) (V P : Mat4 K) (fuel i : Nat) (s : LoopState K)
    (h : s.shouldClose = true) :
    loop F env V P (fuel + 1) i s = ⟨[.glfwWindowShouldClose], i, some s⟩ := by
  simp [loop, h]

/-- Unfolding of the loop when the close flag is not set. -/
lemma loop_open (F : MathFns K) (env : Env K) (V P : Mat4 K) (fuel i : Nat) (s : LoopState K)
    (h : s.shouldClose = false) :
    loop F env V P (fuel + 1) i s =
      ⟨.glfwWindowShouldClose :: (frame F env V P i s).2 ++
          (loop F env V P fuel (i + 1) (frame F env V P i s).1).calls,
        (loop F env V P fuel (i + 1) (frame F env V P i s).1).frames,
        (loop F env V P fuel (i + 1) (frame F env V P i s).1).final⟩ := by
  simp [loop, h]

/-- No call of the loop is a start-up step or a call only `setup` makes. -/
lemma loop_calls_plain (F : MathFns K) (env : Env K) (V P : Mat4 K) :
    ∀ (fuel i : Nat) (s : LoopState K), ∀ c ∈ (loop F env V P fuel i s).calls,
      c.isSetupOnly = false ∧ c.isStartupStep = false := by
  intro fuel
  induction fuel with
  | zero => intro i s c hc; simp [loop] at hc
  | succ n ih =>
    intro i s c hc
    cases hs : s.shouldClose with
    | true =>
      rw [loop_closed F env V P n i s hs] at hc
      simp only [List.mem_singleton] at hc
      subst hc
      exact ⟨rfl, rfl⟩
    | false =>
      rw [loop_open F env V P n i s hs] at hc
      simp only [List.cons_append, List.mem_cons, List.mem_append] at hc
      rcases hc with h | h | h
      · subst h; exact ⟨rfl, rfl⟩
      · exact frame_calls_plain F env V P i s c h
      · exact ih _ _ c h

/-- The loop counts one frame per draw call. -/
lemma loop_frames (F : MathFns K) (env : Env K) (V P : Mat4 K) :
    ∀ (fuel i : Nat) (s : LoopState K),
      (loop F env V P fuel i s).frames =
        i + (loop F env V P fuel i s).calls.countP Call.isDraw := by
  intro fuel
  induction fuel with
  | zero => intro i s; simp [loop]
  | succ n ih =>
    intro i s
    cases hs : s.shouldClose with
    | true => rw [loop_closed F env V P n i s hs]; simp [Call.isDraw]
    | false =>
      rw [loop_open F env V P n i s hs]
      obtain ⟨X, Y, hf, hX, hY⟩ := frame_calls F env V P i s
      simp only [ih, hf]
      have h1 : X.countP Call.isDraw = 0 := List.countP_eq_zero.mpr (by simpa using hX)
      have h2 : Y.countP Call.isDraw = 0 := List.countP_eq_zero.mpr (by simpa using hY)
      simp [List.countP_cons, List.countP_append, h1, h2, Call.isDraw]
      omega

/-- Every draw call of the loop is the draw of 36 indices and comes right
after the uploads of the model of its iteration, the view and the projection
and the binding of the vertex array. -/
lemma loop_draws (F : MathFns K) (env : Env K) (V P : Mat4 K) :
    ∀ (fuel i : Nat) (s : LoopState K) (tail pre post : List (Call K)) (c : Call K),
      s.model = modelAfter F env i → s.lastFrame = lastFrameAt env i →
      (∀ x ∈ tail, x.isDraw = false) →
      (loop F env V P fuel i s).calls ++ tail = pre ++ c :: post → c.isDraw = true →
      c = .glDrawElements 36 ∧
      ∃ pre', pre = pre' ++
        [ .glUniformMatrix4fv .modelLoc (modelAfter F env (i + pre.countP Call.isDraw + 1)),
          .glUniformMatrix4fv .viewLoc V,
          .glUniformMatrix4fv .projLoc P,
          .glBindVertexArray true ] := by
  intro fuel
  induction fuel with
  | zero =>
    intro i s tail pre post c _ _ ht h hc
    simp only [loop, List.nil_append] at h
    have := free_of_eq Call.isDraw tail pre post c h ht
    rw [hc] at this; exact absurd this (by simp)
  | succ n ih =>
    intro i s tail pre post c hm hl ht h hc
    cases hs : s.shouldClose with
    | true =>
      rw [loop_closed F env V P n i s hs] at h
      have := free_of_eq Call.isDraw _ pre post c h
        (by intro x hx
            simp only [List.singleton_append, List.mem_cons] at hx
            rcases hx with hx | hx
            · subst hx; rfl
            · exact ht x hx)
      rw [hc] at this; exact absurd this (by simp)
    | false =>
      rw [loop_open F env V P n i s hs] at h
      obtain ⟨X, Y, hf, hX, hY⟩ := frame_calls F env V P i s
      rw [hf] at h
      have hmodel : updateModel F s.model (env.glfwGetTime i - s.lastFrame) =
          modelAfter F env (i + 1) := by
        rw [hm, hl]; rfl
      rw [hmodel] at h
      have hst := frame_state F env V P i s
      rw [hmodel] at hst
      -- the calls before this iteration's draw
      have hfree : ∀ x ∈ Call.glfwWindowShouldClose :: (X ++
          [ Call.glUniformMatrix4fv .modelLoc (modelAfter F env (i + 1)),
            .glUniformMatrix4fv .viewLoc V, .glUniformMatrix4fv .projLoc P,
            .glBindVertexArray true ]), x.isDraw = false := by
        intro x hx
        simp only [List.mem_cons, List.mem_append, List.mem_singleton, List.not_mem_nil,
          or_false] at hx
        rcases hx with hx | hx | hx | hx | hx | hx
        · subst hx; rfl
        · exact hX x hx
        all_goals subst hx; rfl
      have hcount := List.countP_eq_zero.mpr (fun x hx => by simpa using hfree x hx)
      have h' : (Call.glfwWindowShouldClose :: (X ++
          [ Call.glUniformMatrix4fv .modelLoc (modelAfter F env (i + 1)),
            .glUniformMatrix4fv .viewLoc V, .glUniformMatrix4fv .projLoc P,
            .glBindVertexArray true ])) ++
            (.glDrawElements 36 :: (Y ++
              ((loop F env V P n (i + 1) (frame F env V P i s).1).calls ++ tail))) =
          pre ++ c :: post := by
        rw [← h]; simp
      obtain ⟨pre2, hp, h2⟩ := split_after_free Call.isDraw _ _ pre post c h' hfree hc
      cases pre2 with
      | nil =>
        simp only [List.nil_append, List.cons.injEq] at h2
        refine ⟨h2.1.symm, Call.glfwWindowShouldClose :: X, ?_⟩
        rw [hp, List.append_nil, hcount]
        simp
      | cons d pre2 =>
        simp only [List.cons_append, List.cons.injEq] at h2
        obtain ⟨pre3, hp3, h3⟩ := split_after_free Call.isDraw _ _ pre2 post c h2.2 hY hc
        have hm' : (frame F env V P i s).1.model = modelAfter F env (i + 1) := by rw [hst]
        have hl' : (frame F env V P i s).1.lastFrame = lastFrameAt env (i + 1) := by
          rw [hst]; rfl
        obtain ⟨hc36, pre', hpre'⟩ := ih (i + 1) _ tail pre3 post c hm' hl' ht h3 hc
        refine ⟨hc36, (Call.glfwWindowShouldClose :: (X ++
          [ Call.glUniformMatrix4fv .modelLoc (modelAfter F env (i + 1)),
            .glUniformMatrix4fv .viewLoc V, .glUniformMatrix4fv .projLoc P,
            .glBindVertexArray true ])) ++ d :: (Y ++ pre'), ?_⟩
        have hYc : Y.countP Call.isDraw = 0 := List.countP_eq_zero.mpr (by simpa using hY)
        have hcnt : pre.countP Call.isDraw = 1 + pre3.countP Call.isDraw := by
          rw [hp, hp3, List.countP_append, hcount, List.countP_cons, List.countP_append, hYc,
            ← h2.1]
          simp [Call.isDraw]; omega
        rw [hcnt]
        have e : i + (1 + pre3.countP Call.isDraw) + 1 = i + 1 + pre3.countP Call.isDraw + 1 := by
          omega
        rw [e]
        conv_lhs => rw [hp, hp3, hpre']
        simp

/-- Once the close flag is set or a later iteration sees the escape key or a
close request, a loop with enough fuel ends. -/
lemma loop_ends (F : MathFns K) (env : Env K) (V P : Mat4 K) :
    ∀ (fuel i : Nat) (s : LoopState K),
      (s.shouldClose = true ∧ 1 ≤ fuel) ∨
        (∃ j, i ≤ j ∧ (env.escapePressed j = true ∨ env.closeRequested j = true) ∧
          j + 2 ≤ fuel + i) →
      (loop F env V P fuel i s).final.isSome = true := by
  intro fuel
  induction fuel with
  | zero =>
    intro i s h
    rcases h with ⟨_, h⟩ | ⟨j, h1, _, h2⟩ <;> omega
  | succ n ih =>
    intro i s h
    cases hs : s.shouldClose with
    | true => rw [loop_closed F env V P n i s hs]; rfl
    | false =>
      rw [loop_open F env V P n i s hs]
      rcases h with ⟨h, _⟩ | ⟨j, h1, h2, h3⟩
      · rw [hs] at h; exact absurd h (by simp)
      · apply ih
        rcases Nat.eq_or_lt_of_le h1 with e | l
        · left
          subst e
          refine ⟨?_, by omega⟩
          rw [frame_state]
          simp only [processInput]
          rcases h2 with h2 | h2 <;> simp [h2]
        · right
          exact ⟨j, l, h2, by omega⟩

/-- While no iteration sees the escape key or a close request, the loop does
not end. -/
lemma loop_runs_on (F : MathFns K) (env : Env K) (V P : Mat4 K)
    (h : ∀ j, env.escapePressed j = false ∧ env.closeRequested j = false) :
    ∀ (fuel i : Nat) (s : LoopState K), s.shouldClose = false →
      (loop F env V P fuel i s).final = none := by
  intro fuel
  induction fuel with
  | zero => intro i s _; rfl
  | succ n ih =>
    intro i s hs
    rw [loop_open F env V P n i s hs]
    apply ih
    rw [frame_state]
    simp [processInput, h i, hs]

end Traces

section Main
variable {K : Type} [Field K]

/-- The run of `main` when the three start-up steps succeed. -/
lemma main_started (F : MathFns K) (env : Env K) (fuel : Nat)
    (h1 : env.glfwInit = true) (h2 : env.glfwCreateWindow = true)
    (h3 : env.gladLoadGLLoader = true) :
    ∃ tail : List (Call K),
      (main F env fuel).calls =
        startup ++ ((loop F env viewMatrix (projectionMatrix F) fuel 0
          ⟨initialModel, 0.0, 0.0, false⟩).calls ++ tail) ∧
      (tail = [] ∨ tail = [.glfwTerminate]) ∧
      (main F env fuel).frames =
        (loop F env viewMatrix (projectionMatrix F) fuel 0 ⟨initialModel, 0.0, 0.0, false⟩).frames ∧
      (main F env fuel).status =
        if (loop F env viewMatrix (projectionMatrix F) fuel 0
          ⟨initialModel, 0.0, 0.0, false⟩).final.isSome then some 0 else none := by
  simp only [main, h1, h2, h3]
  cases (loop F env viewMatrix (projectionMatrix F) fuel 0 ⟨initialModel, 0.0, 0.0, false⟩).final with
  | none => exact ⟨[], by simp, Or.inl rfl, rfl, rfl⟩
  | some s => exact ⟨[.glfwTerminate], by simp, Or.inr rfl, rfl, rfl⟩

/-- The run of `main` when a start-up step fails. -/
lemma main_failed (F : MathFns K) (env : Env K) (fuel : Nat)
    (h : env.glfwInit = false ∨ env.glfwCreateWindow = false ∨ env.gladLoadGLLoader = false) :
    (main F env fuel).status = some (-1) ∧ (main F env fuel).frames = 0 ∧
    ∀ c ∈ (main F env fuel).calls,
      c.isSetupOnly = false ∧ c.isDraw = false ∧ c.isLoopTest = false := by
  cases h1 : env.glfwInit <;> cases h2 : env.glfwCreateWindow <;>
    cases h3 : env.gladLoadGLLoader <;>
    simp_all [main, Call.isSetupOnly, Call.isDraw, Call.isLoopTest]

omit [Field K] in
/-- No call of `startup` is a draw or the loop test. -/
lemma startup_free : ∀ c ∈ (startup : List (Call K)), c.isDraw = false ∧ c.isLoopTest = false := by
  simp [startup, setup, Call.isDraw, Call.isLoopTest]

/-- C7: `main` returns -1 exactly when `glfwInit`, `glfwCreateWindow` or the
loader fails, tried in that order and each once; then no call of `setup`, no
loop test and no draw is made, and in the loader case the message goes to the
error stream last. When all three succeed the calls are six start-up calls,
then `setup` once, then calls none of which belongs to `setup` alone; the
status is 0 as soon as the fuel covers the iteration that sees the escape key
or a close request, and the run never ends if there is none. -/
theorem main_exit_status (F : MathFns K) (env : Env K) (fuel : Nat) :
    ((main F env fuel).status = some (-1) ↔
      (env.glfwInit = false ∨ env.glfwCreateWindow = false ∨ env.gladLoadGLLoader = false)) ∧
    (env.glfwInit = false → (main F env fuel).calls = [.glfwInit]) ∧
    (env.glfwInit = true → env.glfwCreateWindow = false →
      (main F env fuel).calls =
        [.glfwInit, .glfwCreateWindow 800 600 "Spinning Cube", .glfwTerminate]) ∧
    (env.glfwInit = true → env.glfwCreateWindow = true → env.gladLoadGLLoader = false →
      (main F env fuel).calls =
        [ .glfwInit, .glfwCreateWindow 800 600 "Spinning Cube", .glfwMakeContextCurrent,
          .glfwSetFramebufferSizeCallback, .gladLoadGLLoader,
          .cerr "Failed to initialize GLAD", .cerrEndl ]) ∧
    ((env.glfwInit = false ∨ env.glfwCreateWindow = false ∨ env.gladLoadGLLoader = false) →
      (main F env fuel).frames = 0 ∧
      ∀ c ∈ (main F env fuel).calls,
        c.isSetupOnly = false ∧ c.isDraw = false ∧ c.isLoopTest = false) ∧
    (main F env fuel).calls.countP Call.isStartupStep ≤ 3 ∧
    (env.glfwInit = true → env.glfwCreateWindow = true → env.gladLoadGLLoader = true →
      (∃ rest, (main F env fuel).calls =
          [ .glfwInit, .glfwCreateWindow 800 600 "Spinning Cube", .glfwMakeContextCurrent,
            .glfwSetFramebufferSizeCallback, .gladLoadGLLoader, .glEnableDepthTest ] ++
          setup ++ rest ∧
        ∀ c ∈ rest, c.isSetupOnly = false) ∧
      (main F env fuel).calls.countP Call.isSetupOnly =
        (setup : List (Call K)).countP Call.isSetupOnly ∧
      (∀ c ∈ (setup : List (Call K)), c.isLoopTest = false ∧ c.isDraw = false) ∧
      ((main F env fuel).status = some 0 ∨ (main F env fuel).status = none) ∧
      (∀ j, (env.escapePressed j = true ∨ env.closeRequested j = true) → j + 2 ≤ fuel →
        (main F env fuel).status = some 0) ∧
      ((∀ j, env.escapePressed j = false ∧ env.closeRequested j = false) →
        (main F env fuel).status = none)) := by
  refine ⟨?_, ?_, ?_, ?_, ?_, ?_, ?_⟩
  · constructor
    · intro h
      by_contra hne
      simp only [Bool.not_eq_false, not_or] at hne
      obtain ⟨tail, -, -, -, hst⟩ := main_started F env fuel hne.1 hne.2.1 hne.2.2
      rw [hst] at h
      split at h <;> simp at h
    · intro h; exact (main_failed F env fuel h).1
  · intro h; simp [main, h]
  · intro h1 h2; simp [main, h1, h2]
  · intro h1 h2 h3; simp [main, h1, h2, h3]
  · intro h; exact (main_failed F env fuel h).2
  · cases h1 : env.glfwInit
    · simp [main, h1, Call.isStartupStep]
    cases h2 : env.glfwCreateWindow
    · simp [main, h1, h2, Call.isStartupStep, List.countP_cons]
    cases h3 : env.gladLoadGLLoader
    · simp [main, h1, h2, h3, Call.isStartupStep, List.countP_cons]
    obtain ⟨tail, hc, ht, -, -⟩ := main_started F env fuel h1 h2 h3
    rw [hc, List.countP_append, List.countP_append]
    have hl : (loop F env viewMatrix (projectionMatrix F) fuel 0
        ⟨initialModel, 0.0, 0.0, false⟩).calls.countP Call.isStartupStep = 0 :=
      List.countP_eq_zero.mpr (fun c hc => by
        simpa using (loop_calls_plain F env _ _ fuel 0 _ c hc).2)
    have hs : (startup : List (Call K)).countP Call.isStartupStep = 3 := by
      simp [startup, setup, Call.isStartupStep, List.countP_cons]
    rw [hl, hs]
    rcases ht with ht | ht <;> simp [ht, Call.isStartupStep, List.countP_cons]
  · intro h1 h2 h3
    obtain ⟨tail, hc, ht, -, hst⟩ := main_started F env fuel h1 h2 h3
    have hrest : ∀ c ∈ (loop F env viewMatrix (projectionMatrix F) fuel 0
        ⟨initialModel, 0.0, 0.0, false⟩).calls ++ tail, c.isSetupOnly = false := by
      intro c hc
      rcases List.mem_append.mp hc with h | h
      · exact (loop_calls_plain F env _ _ fuel 0 _ c h).1
      · rcases ht with ht | ht <;> rw [ht] at h <;> simp at h
        subst h; rfl
    refine ⟨⟨_, ?_, hrest⟩, ?_, ?_, ?_, ?_, ?_⟩
    · rw [hc]; simp [startup]
    · have hz : ((loop F env viewMatrix (projectionMatrix F) fuel 0
          ⟨initialModel, 0.0, 0.0, false⟩).calls ++ tail).countP Call.isSetupOnly = 0 :=
        List.countP_eq_zero.mpr (fun c hc => by simpa using hrest c hc)
      rw [hc, List.countP_append, hz]
      simp [startup, Call.isSetupOnly, List.countP_cons, List.countP_append]
    · simp [setup, Call.isLoopTest, Call.isDraw]
    · rw [hst]; split <;> simp
    · intro j hj hf
      rw [hst, loop_ends F env _ _ fuel 0 _ (Or.inr ⟨j, Nat.zero_le _, hj, by omega⟩)]
      rfl
    · intro hno
      rw [hst, loop_runs_on F env _ _ hno fuel 0 _ rfl]
      rfl

/-- C8: every draw call of a run is the draw of 36 indices and is preceded
directly by the upload of the model as updated in its own iteration, the
upload of the view and the projection computed before the loop, and the
binding of the vertex array; the number of draw calls is the number of
iterations. -/
theorem draws_follow_uploads (F : MathFns K) (env : Env K) (fuel : Nat)
    (pre post : List (Call K)) (c : Call K)
    (h : (main F env fuel).calls = pre ++ c :: post) (hc : c.isDraw = true) :
    c = .glDrawElements 36 ∧
    (∃ pre', pre = pre' ++
      [ .glUniformMatrix4fv .modelLoc
          (updateModel F (modelAfter F env (pre.countP Call.isDraw)) (deltaAt env (pre.countP Call.isDraw))),
        .glUniformMatrix4fv .viewLoc viewMatrix,
        .glUniformMatrix4fv .projLoc (projectionMatrix F),
        .glBindVertexArray true ]) ∧
    (main F env fuel).calls.countP Call.isDraw = (main F env fuel).frames := by
  by_cases hf : env.glfwInit = false ∨ env.glfwCreateWindow = false ∨
      env.gladLoadGLLoader = false
  · have := ((main_failed F env fuel hf).2.2 c (by rw [h]; simp)).2.1
    rw [hc] at this; exact absurd this (by simp)
  · simp only [Bool.not_eq_false, not_or] at hf
    obtain ⟨tail, hcalls, ht, hfr, -⟩ := main_started F env fuel hf.1 hf.2.1 hf.2.2
    have htail : ∀ x ∈ tail, x.isDraw = false := by
      intro x hx
      rcases ht with ht | ht <;> rw [ht] at hx <;> simp at hx
      subst hx; rfl
    have hsc : (startup : List (Call K)).countP Call.isDraw = 0 :=
      List.countP_eq_zero.mpr (fun x hx => by simpa using (startup_free x hx).1)
    rw [hcalls] at h
    obtain ⟨pre2, hp, h2⟩ := split_after_free Call.isDraw _ _ pre post c h
      (fun x hx => (startup_free x hx).1) hc
    obtain ⟨h36, pre', hpre'⟩ := loop_draws F env _ _ fuel 0 _ tail pre2 post c rfl rfl htail h2 hc
    have hcnt : pre.countP Call.isDraw = pre2.countP Call.isDraw := by
      rw [hp, List.countP_append, hsc, Nat.zero_add]
    refine ⟨h36, ⟨startup ++ pre', ?_⟩, ?_⟩
    · rw [hcnt]
      conv_lhs => rw [hp, hpre']
      simp [modelAfter]
    · have hz : tail.countP Call.isDraw = 0 :=
        List.countP_eq_zero.mpr (fun x hx => by simpa using htail x hx)
      rw [hcalls, hfr, loop_frames, List.countP_append, List.countP_append, hsc, hz]
      simp

/-- C9: in a run that gets past start-up, `VBO` and `EBO` are each bound once
and the vertex table and the index table are each uploaded once, in `setup`,
each buffer to its own target right before its upload; `setup` comes before
the first loop test and nothing outside it binds or fills a buffer. In every
run no call made after a loop test binds or fills a buffer. -/
theorem geometry_buffers_bound_once (F : MathFns K) (env : Env K) (fuel : Nat) :
    (env.glfwInit = true → env.glfwCreateWindow = true → env.gladLoadGLLoader = true →
      (main F env fuel).calls.countP (Call.bindsBuffer .VBO) = 1 ∧
      (main F env fuel).calls.countP (Call.bindsBuffer .EBO) = 1 ∧
      (main F env fuel).calls.countP (Call.uploads .vertices) = 1 ∧
      (main F env fuel).calls.countP (Call.uploads .indices) = 1 ∧
      ∃ init rest, (main F env fuel).calls = init ++ setup ++ rest ∧
        (∀ c ∈ init, c.isBufferCall = false ∧ c.isLoopTest = false) ∧
        (∀ c ∈ (setup : List (Call K)), c.isLoopTest = false) ∧
        (∀ c ∈ rest, c.isBufferCall = false)) ∧
    (∃ A B : List (Call K), setup = A ++
      [ .glBindBuffer .arrayBuffer (some .VBO), .glBufferData .arrayBuffer .vertices,
        .glBindBuffer .elementArrayBuffer (some .EBO),
        .glBufferData .elementArrayBuffer .indices ] ++ B) ∧
    (∀ (pre post : List (Call K)) (c : Call K), (main F env fuel).calls = pre ++ c :: post →
      (∃ x ∈ pre, x.isLoopTest = true) → c.isBufferCall = false) := by
  have hbuf : ∀ c : Call K, c.isSetupOnly = false → c.isBufferCall = false := by
    intro c; cases c <;> simp [Call.isSetupOnly, Call.isBufferCall]
  have hbind : ∀ (b : Buffer) (c : Call K), c.isBufferCall = false → c.bindsBuffer b = false := by
    intro b c; cases c <;> simp [Call.bindsBuffer, Call.isBufferCall]
  have hup : ∀ (t : Table) (c : Call K), c.isBufferCall = false → c.uploads t = false := by
    intro t c; cases c <;> simp [Call.uploads, Call.isBufferCall]
  have hrest : ∀ (tail : List (Call K)), (tail = [] ∨ tail = [.glfwTerminate]) →
      ∀ c ∈ (loop F env viewMatrix (projectionMatrix F) fuel 0
        ⟨initialModel, 0.0, 0.0, false⟩).calls ++ tail, c.isBufferCall = false := by
    intro tail ht c hc
    rcases List.mem_append.mp hc with h | h
    · exact hbuf c (loop_calls_plain F env _ _ fuel 0 _ c h).1
    · rcases ht with ht | ht <;> rw [ht] at h <;> simp at h
      subst h; rfl
  refine ⟨?_, ⟨setup.take 16, setup.drop 20, rfl⟩, ?_⟩
  · intro h1 h2 h3
    obtain ⟨tail, hc, ht, -, -⟩ := main_started F env fuel h1 h2 h3
    have hr := hrest tail ht
    have z : ∀ p : Call K → Bool, (∀ c : Call K, c.isBufferCall = false → p c = false) →
        ((loop F env viewMatrix (projectionMatrix F) fuel 0
          ⟨initialModel, 0.0, 0.0, false⟩).calls ++ tail).countP p = 0 := by
      intro p hp
      exact List.countP_eq_zero.mpr (fun c hc => by simpa using hp c (hr c hc))
    refine ⟨?_, ?_, ?_, ?_, ?_⟩
    · rw [hc, List.countP_append, z _ (hbind .VBO)]
      simp [startup, setup, Call.bindsBuffer, List.countP_cons]
    · rw [hc, List.countP_append, z _ (hbind .EBO)]
      simp [startup, setup, Call.bindsBuffer, List.countP_cons]
    · rw [hc, List.countP_append, z _ (hup .vertices)]
      simp [startup, setup, Call.uploads, List.countP_cons]
    · rw [hc, List.countP_append, z _ (hup .indices)]
      simp [startup, setup, Call.uploads, List.countP_cons]
    · refine ⟨[ .glfwInit, .glfwCreateWindow 800 600 "Spinning Cube", .glfwMakeContextCurrent,
          .glfwSetFramebufferSizeCallback, .gladLoadGLLoader, .glEnableDepthTest ], _, ?_, ?_, ?_,
          hr⟩
      · rw [hc]; simp [startup]
      · simp [Call.isBufferCall, Call.isLoopTest]
      · simp [setup, Call.isLoopTest]
  · intro pre post c h ⟨x, hx, hxl⟩
    by_cases hf : env.glfwInit = false ∨ env.glfwCreateWindow = false ∨
        env.gladLoadGLLoader = false
    · have := ((main_failed F env fuel hf).2.2 x (by rw [h]; simp [hx])).2.2
      rw [hxl] at this; exact absurd this (by simp)
    · simp only [Bool.not_eq_false, not_or] at hf
      obtain ⟨tail, hcalls, ht, -, -⟩ := main_started F env fuel hf.1 hf.2.1 hf.2.2
      obtain ⟨p1, p2, hp⟩ := List.append_of_mem hx
      rw [hcalls, hp, List.append_assoc, List.cons_append] at h
      obtain ⟨q, -, hq⟩ := split_after_free Call.isLoopTest _ _ p1 _ x h
        (fun y hy => (startup_free y hy).2) hxl
      exact hrest tail ht c (by rw [hq]; simp)

end Main

/-- Witness for C8: in the sample run the draw call is call number 45. -/
theorem draws_follow_uploads_witness :
    (main realFns sampleEnv 2).calls =
        (main realFns sampleEnv 2).calls.take 45 ++
          .glDrawElements 36 :: (main realFns sampleEnv 2).calls.drop 46 ∧
      (Call.glDrawElements 36 : Call ℝ).isDraw = true ∧
      ((Call.glDrawElements 36 : Call ℝ) = .glDrawElements 36 ∧
      (∃ pre', (main realFns sampleEnv 2).calls.take 45 = pre' ++
        [ .glUniformMatrix4fv .modelLoc
            (updateModel realFns
              (modelAfter realFns sampleEnv
                (((main realFns sampleEnv 2).calls.take 45).countP Call.isDraw))
              (deltaAt sampleEnv (((main realFns sampleEnv 2).calls.take 45).countP Call.isDraw))),
          .glUniformMatrix4fv .viewLoc viewMatrix,
          .glUniformMatrix4fv .projLoc (projectionMatrix realFns),
          .glBindVertexArray true ]) ∧
      (main realFns sampleEnv 2).calls.countP Call.isDraw = (main realFns sampleEnv 2).frames) :=
  ⟨rfl, rfl, draws_follow_uploads realFns sampleEnv 2 _ _ _ rfl rfl⟩

/-- Witness for C7: the sample run, whose first iteration sees the escape
key, returns 0 with fuel 2. -/
theorem main_exit_status_witness : (main realFns sampleEnv 2).status = some 0 :=
  ((main_exit_status realFns sampleEnv 2).2.2.2.2.2.2 rfl rfl rfl).2.2.2.2.1 0
    (Or.inl rfl) (by decide)

/-- Witness for C9: in the sample run `VBO` is bound once. -/
theorem geometry_buffers_bound_once_witness :
    (main realFns sampleEnv 2).calls.countP (Call.bindsBuffer .VBO) = 1 :=
  ((geometry_buffers_bound_once realFns sampleEnv 2).1 rfl rfl rfl).1

end Cube
